import Mathlib

/-!
Verification of the iTwin etl-samples Turtle exporters.

This file gives a shallow embedding of the two TurtleExporter variants found in
the repository: the schema-mapping exporter (`src/src/TurtleExporter.ts`) and
the instance-mapping exporter (the unnamed source `src/unnamed/part_000`).
File appends performed by `writeTriple` become lists of `Triple`s; a TypeScript
`throw` becomes the error component of an `Emit` value, which keeps the lines
already appended to the file before the throw.  Schema/class metadata supplied
by the `@bentley/ecschema-metadata` package is embedded as explicit inductive
data; the schema loader and relationship-class lookups become an `Env` of
lookup functions.
-/

namespace ETL

/-- One line `subject predicate object .` appended by `writeTriple`. -/
structure Triple where
  subj : String
  pred : String
  obj : String
deriving DecidableEq, Repr

/-- Result of running a piece of exporter code: the lines appended to the
output file, in order, together with the message of an uncaught exception when
one was thrown (the lines before the throw remain written). -/
abbrev Emit := List Triple × Option String

/-- Sequencing of two exporter steps: if the first threw, the second never
runs; otherwise the appended lines concatenate. -/
def Emit.seq (a b : Emit) : Emit :=
  match a.2 with
  | some _ => a
  | none => (a.1 ++ b.1, b.2)

/-- Lines appended with no exception. -/
def emitAll (l : List Triple) : Emit := (l, none)

/-- A thrown exception before any line of this step was appended. -/
def emitFail (msg : String) : Emit := ([], some msg)

namespace rdf

def pfx := "rdf"

def iri := "http://www.w3.org/1999/02/22-rdf-syntax-ns#"

def type := "rdf:type"

def Property := "rdf:Property"

def List := "rdf:List"

end rdf

namespace rdfs

def pfx := "rdfs"

def iri := "http://www.w3.org/2000/01/rdf-schema#"

def Class := "rdfs:Class"

def subClassOf := "rdfs:subClassOf"

def Literal := "rdfs:Literal"

def label := "rdfs:label"

def comment := "rdfs:comment"

def range := "rdfs:range"

def domain := "rdfs:domain"

end rdfs

namespace xsd

def pfx := "xsd"

def iri := "http://www.w3.org/2001/XMLSchema#"

def base64Binary := "xsd:base64Binary"

def boolean := "xsd:boolean"

def dateTime := "xsd:dateTime"

def double := "xsd:double"

def integer := "xsd:integer"

def long := "xsd:long"

def string := "xsd:string"

end xsd

namespace ec

def pfx := "ec"

def iri := "http://www.example.org/ec#"

def Class := "ec:Class"

def EntityClass := "ec:EntityClass"

def RelationshipClass := "ec:RelationshipClass"

def CustomAttributeClass := "ec:CustomAttributeClass"

def Enumeration := "ec:Enumeration"

def IGeometry := "ec:IGeometry"

def Mixin := "ec:Mixin"

def Property := "ec:Property"

def PrimitiveProperty := "ec:PrimitiveProperty"

def StructProperty := "ec:StructProperty"

def PrimitiveArrayProperty := "ec:PrimitiveArrayProperty"

def StructArrayProperty := "ec:StructArrayProperty"

def NavigationProperty := "ec:NavigationProperty"

def Point2d := "ec:Point2d"

def Point3d := "ec:Point3d"

def ExtendedType := "ec:ExtendedType"

def Id64String := "ec:Id64String"

def JsonString := "ec:JsonString"

def GuidString := "ec:GuidString"

end ec

-- Members of the `InstancePrefix` enum of the source: the prefixes under
-- which instance ids are formatted.
namespace InstanceKey

def codeSpec := "codeSpecId"

def element := "elementId"

def elementAspect := "aspectId"

def model := "modelId"

def relationship := "relationshipId"

end InstanceKey

/-- Kinds of schema items (`SchemaItemType` of ecschema-metadata); the mapper
recognizes the first five, the remaining members of the enum fall into the
`default: throw` branch of `writeClass`. -/
inductive SchemaItemType where
  | customAttributeClass
  | entityClass
  | enumeration
  | mixin
  | relationshipClass
  | structClass
  | kindOfQuantity
  | propertyCategory
deriving DecidableEq, Repr

/-- Primitive property types (`PrimitiveType` of ecschema-metadata).
`uninitialized` is the enum's zero member, outside the set the mapper
handles. -/
inductive PrimitiveType where
  | uninitialized
  | binary
  | boolean
  | dateTime
  | double
  | iGeometry
  | integer
  | long
  | point2d
  | point3d
  | string
deriving DecidableEq, Repr

/-- Direction of a navigation property (`StrengthDirection`). -/
inductive StrengthDirection where
  | forward
  | backward
deriving DecidableEq, Repr

/-- A property as seen through the dynamic type tests the exporter performs
(`isArray()`, `isPrimitive()`, `isEnumeration()`, `isNavigation()`,
`isStruct()`), together with the metadata fields the exporter reads. -/
structure Property where
  name : String
  description : Option String
  isArray : Bool
  isPrimitive : Bool
  isEnumeration : Bool
  isNavigation : Bool
  isStruct : Bool
  primitiveType : PrimitiveType
  extendedTypeName : Option String
  enumerationFullName : Option String
  relationshipFullName : String
  direction : StrengthDirection
deriving DecidableEq, Repr

/-- A class (`ECClass`): schema alias and name, own name, kind, optional base
class (single inheritance, `getBaseClassSync`), custom attributes
(`getCustomAttributesSync`, by full attribute name), optional description and
declared properties. -/
inductive ECClass where
  | mk (schemaAlias schemaName name : String) (schemaItemType : SchemaItemType)
      (baseClass : Option ECClass) (customAttributes : List String)
      (description : Option String) (properties : List Property)

def ECClass.schemaAlias : ECClass → String
  | .mk a _ _ _ _ _ _ _ => a

def ECClass.schemaName : ECClass → String
  | .mk _ s _ _ _ _ _ _ => s

def ECClass.name : ECClass → String
  | .mk _ _ n _ _ _ _ _ => n

def ECClass.schemaItemType : ECClass → SchemaItemType
  | .mk _ _ _ t _ _ _ _ => t

def ECClass.baseClass : ECClass → Option ECClass
  | .mk _ _ _ _ b _ _ _ => b

def ECClass.customAttributes : ECClass → List String
  | .mk _ _ _ _ _ as _ _ => as

def ECClass.description : ECClass → Option String
  | .mk _ _ _ _ _ _ d _ => d

def ECClass.properties : ECClass → List Property
  | .mk _ _ _ _ _ _ _ ps => ps

/-- `ECClass.fullName` of ecschema-metadata: `SchemaName.ItemName`. -/
def ECClass.fullName (c : ECClass) : String := c.schemaName ++ "." ++ c.name

/-- Source and target constraints of a relationship class: the
`constraintClasses` full-name lists, `none` when the list is `undefined`. -/
structure RelationshipEnds where
  source : Option (List String)
  target : Option (List String)
deriving DecidableEq, Repr

/-- Lookup environment standing for the `IModelSchemaLoader`:
`schemaAlias` maps a schema name to the alias of the loaded schema, and
`relationshipConstraints` resolves a relationship class full name the way
`tryGetClass` does (returning `none` when the item is missing). -/
structure Env where
  schemaAlias : String → String
  relationshipConstraints : String → Option RelationshipEnds

/-- ASCII lowercasing, modelling `toLowerCase`/`toLocaleLowerCase` on the
ASCII names the metadata uses. -/
def lowerStr (s : String) : String := String.mk (s.data.map Char.toLower)

/-- Replace the first occurrence of a character, as the JavaScript
`String.replace` with string arguments does. -/
def replaceFirstChar : List Char → Char → Char → List Char
  | [], _, _ => []
  | c :: rest, a, b => if c = a then b :: rest else c :: replaceFirstChar rest a b

/-- Split a character list at every occurrence of a separator, as
`String.split` does; the result is always nonempty. -/
def splitAtChar (sep : Char) : List Char → List (List Char)
  | [] => [[]]
  | c :: rest =>
    match splitAtChar sep rest with
    | [] => [[]]
    | h :: t => if c = sep then [] :: h :: t else (c :: h) :: t

/-- JavaScript truthiness of a `string | undefined` value: defined and
nonempty. -/
def strTruthy : Option String → Bool
  | none => false
  | some s => s != ""

/-- `formatSchemaItem`: `schema.alias:item.name`. -/
def formatSchemaItem (c : ECClass) : String := c.schemaAlias ++ ":" ++ c.name

/-- `formatSchemaItemFullName`: replace the first `.` by `:`, split at `:`,
resolve the schema part to its alias and re-join with the item name. -/
def formatSchemaItemFullName (env : Env) (fullName : String) : String :=
  let parts := splitAtChar ':' (replaceFirstChar fullName.data '.' ':')
  let schemaName := String.mk (parts.headD [])
  let itemName := String.mk ((parts.drop 1).headD [])
  env.schemaAlias schemaName ++ ":" ++ itemName

/-- `formatCodeSpecInstanceId`. -/
def formatCodeSpecInstanceId (codeSpecId : String) : String :=
  InstanceKey.codeSpec ++ ":c" ++ codeSpecId

/-- `formatElementInstanceId`. -/
def formatElementInstanceId (elementId : String) : String :=
  InstanceKey.element ++ ":e" ++ elementId

/-- `formatAspectInstanceId`. -/
def formatAspectInstanceId (elementId : String) : String :=
  InstanceKey.elementAspect ++ ":a" ++ elementId

/-- `formatModelInstanceId`. -/
def formatModelInstanceId (modelId : String) : String :=
  InstanceKey.model ++ ":m" ++ modelId

/-- `formatRelationshipInstanceId`. -/
def formatRelationshipInstanceId (relationshipId : String) : String :=
  InstanceKey.relationship ++ ":r" ++ relationshipId

/-- `writeLabel` of the schema-mapping exporter (`src/src/TurtleExporter.ts`):
the label is wrapped in bare double quotes by a template literal, with no
escaping.  The source defaults `label` to `rdfName`; callers of the default
pass the name twice here. -/
def writeLabel (rdfName label : String) : List Triple :=
  [⟨rdfName, rdfs.label, "\"" ++ label ++ "\""⟩]

/-- `writeComment` of the schema-mapping exporter: bare quotes, no escaping. -/
def writeComment (rdfName comment : String) : List Triple :=
  [⟨rdfName, rdfs.comment, "\"" ++ comment ++ "\""⟩]

/-- `writePropertyTriples`: label first, then `subClassOf`, `domain`, and,
when truthy, `range` and the description comment. -/
def writePropertyTriples (classRdfName propertyName subClassOfTerm : String)
    (range : Option String) (comment : Option String) : List Triple :=
  let propertyRdfName := classRdfName ++ "-" ++ propertyName
  let propertyLabel := classRdfName ++ "." ++ propertyName
  writeLabel propertyRdfName propertyLabel
    ++ [⟨propertyRdfName, rdfs.subClassOf, subClassOfTerm⟩,
        ⟨propertyRdfName, rdfs.domain, classRdfName⟩]
    ++ (if strTruthy range then [⟨propertyRdfName, rdfs.range, range.getD ""⟩] else [])
    ++ (if strTruthy comment then writeComment propertyRdfName (comment.getD "") else [])

/-- Value of the local `propertyRange` variable of `writePrimitiveProperty`:
the switch over the primitive type, with the extended-type refinements for
binary and string, throwing on a primitive type outside the handled set. -/
def primitiveRangeResult (p : Property) : Except String String :=
  match p.primitiveType with
  | .binary =>
    .ok (if strTruthy p.extendedTypeName then
          (if lowerStr (p.extendedTypeName.getD "") = "beguid" then ec.GuidString
           else xsd.base64Binary)
         else xsd.base64Binary)
  | .boolean => .ok xsd.boolean
  | .dateTime => .ok xsd.dateTime
  | .double => .ok xsd.double
  | .iGeometry => .ok ec.IGeometry
  | .integer => .ok xsd.integer
  | .long => .ok xsd.long
  | .point2d => .ok ec.Point2d
  | .point3d => .ok ec.Point3d
  | .string =>
    .ok (if strTruthy p.extendedTypeName then
          (if lowerStr (p.extendedTypeName.getD "") = "json" then ec.JsonString
           else xsd.string)
         else xsd.string)
  | .uninitialized => .error "Unexpected PrimitiveType"

/-- `writePrimitiveProperty`: compute the range from the primitive type and
the extended-type hint, throwing on a primitive type outside the handled set;
then emit the property triples. -/
def writePrimitiveProperty (classRdfName : String) (p : Property) : Emit :=
  match primitiveRangeResult p with
  | .error e => emitFail e
  | .ok r => emitAll (writePropertyTriples classRdfName p.name ec.PrimitiveProperty (some r) p.description)

/-- `writeNavigationProperty`: resolve the relationship class (the source
asserts the lookup with `!`, so a failed lookup is a thrown TypeError), pick
the first class of the target constraint for forward direction and of the
source constraint for backward, defaulting to `ec:EntityClass` when the
constraint-class list is `undefined`; indexing `[0]` into a present empty
list is a thrown TypeError.  This is the value of the local
`constraintClassRdfName` variable computed by the switch in
`writeNavigationProperty`. -/
def navigationRangeResult (env : Env) (direction : StrengthDirection)
    (rc : RelationshipEnds) : Except String String :=
  match direction with
  | .forward =>
    match rc.target with
    | none => .ok ec.EntityClass
    | some [] => .error "TypeError: no constraint class at index 0"
    | some (a :: _) => .ok (formatSchemaItemFullName env a)
  | .backward =>
    match rc.source with
    | none => .ok ec.EntityClass
    | some [] => .error "TypeError: no constraint class at index 0"
    | some (a :: _) => .ok (formatSchemaItemFullName env a)

/-- `writeNavigationProperty`: resolve the relationship class, compute the
range by direction, then emit the property triples. -/
def writeNavigationProperty (env : Env) (classRdfName : String) (p : Property) : Emit :=
  match env.relationshipConstraints p.relationshipFullName with
  | none => emitFail "TypeError: relationship class not found"
  | some rc =>
    match navigationRangeResult env p.direction rc with
    | .error e => emitFail e
    | .ok r => emitAll (writePropertyTriples classRdfName p.name ec.NavigationProperty (some r) p.description)

/-- `writeProperty`: the dynamic dispatch chain over array, enumeration,
navigation, struct and primitive properties. -/
def writeProperty (env : Env) (classRdfName : String) (p : Property) : Emit :=
  if p.isArray then
    if p.isPrimitive then
      emitAll (writePropertyTriples classRdfName p.name ec.PrimitiveArrayProperty (some rdf.List) p.description)
    else
      emitAll (writePropertyTriples classRdfName p.name ec.StructArrayProperty (some rdf.List) p.description)
  else
    if p.isEnumeration then
      if strTruthy p.enumerationFullName then
        emitAll (writePropertyTriples classRdfName p.name ec.PrimitiveProperty
          (some (formatSchemaItemFullName env (p.enumerationFullName.getD ""))) p.description)
      else if p.isPrimitive then
        writePrimitiveProperty classRdfName p
      else emitAll []
    else if p.isNavigation then
      writeNavigationProperty env classRdfName p
    else if p.isStruct then
      emitAll (writePropertyTriples classRdfName p.name ec.StructProperty none p.description)
    else if p.isPrimitive then
      writePrimitiveProperty classRdfName p
    else emitAll []

/-- `isNavigationRelationship`: a relationship class is a navigation
relationship when the walk along `getBaseClassSync` reaches a root that does
not carry the `ECDbMap.LinkTableRelationshipMap` custom attribute; a
non-relationship class is never one. -/
def isNavigationRelationship : ECClass → Bool
  | .mk _ _ _ t b attrs _ _ =>
    if t = SchemaItemType.relationshipClass then
      match b with
      | some base => isNavigationRelationship base
      | none => !(attrs.contains "ECDbMap.LinkTableRelationshipMap")
    else false

/-- `writeClass`: skip navigation relationships entirely; otherwise emit the
supertype triple (base class when declared, else by kind with a throw on an
unrecognized kind), the label, the optional description comment, and the
declared properties. -/
def writeClass (env : Env) (c : ECClass) : Emit :=
  if isNavigationRelationship c then emitAll []
  else
    let classRdfName := formatSchemaItem c
    let supertype : Emit :=
      match c.baseClass with
      | some base => emitAll [⟨classRdfName, rdfs.subClassOf, formatSchemaItem base⟩]
      | none =>
        match c.schemaItemType with
        | .customAttributeClass => emitAll [⟨classRdfName, rdfs.subClassOf, ec.CustomAttributeClass⟩]
        | .entityClass => emitAll [⟨classRdfName, rdfs.subClassOf, ec.EntityClass⟩]
        | .enumeration => emitAll [⟨classRdfName, rdfs.subClassOf, ec.Enumeration⟩]
        | .mixin => emitAll [⟨classRdfName, rdfs.subClassOf, ec.Mixin⟩]
        | .relationshipClass => emitAll [⟨classRdfName, rdfs.subClassOf, ec.RelationshipClass⟩]
        | _ => emitFail "Unexpected class type"
    Emit.seq supertype
      (Emit.seq (emitAll (writeLabel classRdfName classRdfName))
        (Emit.seq
          (if strTruthy c.description then emitAll (writeComment classRdfName (c.description.getD "")) else emitAll [])
          (c.properties.foldl (fun acc p => Emit.seq acc (writeProperty env classRdfName p)) (emitAll []))))

/-! ## Decimal printing of JavaScript integral numbers

`${n}` and `JSON.stringify(n)` print an integral number in decimal.  The
digit builder takes explicit fuel so that it is structurally recursive and
evaluates inside the kernel. -/

/-- Decimal digit character. -/
def digitChar (n : Nat) : Char := Char.ofNat (48 + n)

/-- Big-endian decimal digits of `n` accumulated onto `acc`; `fuel` bounds the
recursion and is sufficient whenever `n < fuel`. -/
def natToChars : Nat → Nat → List Char → List Char
  | 0, _, acc => acc
  | fuel + 1, n, acc => if n = 0 then acc else natToChars fuel (n / 10) (digitChar (n % 10) :: acc)

/-- Decimal representation of a natural number. -/
def natReprChars (n : Nat) : List Char := if n = 0 then ['0'] else natToChars (n + 1) n []

/-- Decimal representation of an integer, as JavaScript prints it. -/
def intReprChars (i : Int) : List Char :=
  if i < 0 then '-' :: natReprChars i.natAbs else natReprChars i.natAbs

/-- Decimal representation of an integer as a string. -/
def intReprS (i : Int) : String := String.mk (intReprChars i)

/-! ## JSON string escaping (`JSON.stringify` on strings) -/

/-- Lowercase hexadecimal digit character. -/
def hexDigitChar (n : Nat) : Char := if n < 10 then Char.ofNat (48 + n) else Char.ofNat (87 + n)

/-- Escape of one character inside a JSON string literal, following
`JSON.stringify`: quote, backslash and the named control escapes, `\u00xx`
for the remaining control characters, everything else verbatim. -/
def escChar (c : Char) : List Char :=
  if c = '"' then ['\\', '"']
  else if c = '\\' then ['\\', '\\']
  else if c = '\x08' then ['\\', 'b']
  else if c = '\t' then ['\\', 't']
  else if c = '\n' then ['\\', 'n']
  else if c = '\x0c' then ['\\', 'f']
  else if c = '\r' then ['\\', 'r']
  else if c.toNat < 32 then
    ['\\', 'u', '0', '0', hexDigitChar (c.toNat / 16), hexDigitChar (c.toNat % 16)]
  else [c]

/-- Escape every character of a JSON string body. -/
def escapeChars : List Char → List Char
  | [] => []
  | c :: rest => escChar c ++ escapeChars rest

/-- `JSON.stringify` applied to a string: surrounding quotes plus escaping. -/
def jsonQuote (s : String) : String := String.mk ('"' :: escapeChars s.data ++ ['"'])

/-! ## JavaScript property values

The instance exporter reads property values dynamically from the entity's
JSON representation.  The value shapes it dispatches on are embedded here:
scalars, point objects, and related-element references. -/

/-- A JavaScript value as the instance exporter sees it. -/
inductive JsValue where
  | boolean (b : Bool)
  | number (n : Int)
  | string (s : String)
  | point2d (x y : Int)
  | point3d (x y z : Int)
  | idObj (id : String)
deriving DecidableEq, Repr

/-- JSON text of a 2d point object, `JSON.stringify` of `\x7bx, y\x7d`. -/
def point2dJsonText (x y : Int) : String :=
  "\x7b\"x\":" ++ intReprS x ++ ",\"y\":" ++ intReprS y ++ "\x7d"

/-- JSON text of a 3d point object. -/
def point3dJsonText (x y z : Int) : String :=
  "\x7b\"x\":" ++ intReprS x ++ ",\"y\":" ++ intReprS y ++ ",\"z\":" ++ intReprS z ++ "\x7d"

/-- `JSON.stringify` on the embedded value shapes. -/
def jsStringify : JsValue → String
  | .boolean true => "true"
  | .boolean false => "false"
  | .number n => intReprS n
  | .string s => jsonQuote s
  | .point2d x y => point2dJsonText x y
  | .point3d x y z => point3dJsonText x y z
  | .idObj id => "\x7b\"id\":" ++ jsonQuote id ++ "\x7d"

/-- JavaScript string coercion `${v}` used by `writeTriple`'s template
literal: numbers and booleans print their literal form, strings pass through
unquoted, plain objects print as `[object Object]`. -/
def jsToString : JsValue → String
  | .boolean true => "true"
  | .boolean false => "false"
  | .number n => intReprS n
  | .string s => s
  | .point2d _ _ => "[object Object]"
  | .point3d _ _ _ => "[object Object]"
  | .idObj _ => "[object Object]"

/-- JavaScript truthiness of a defined value. -/
def jsTruthy : JsValue → Bool
  | .boolean b => b
  | .number n => n != 0
  | .string s => s != ""
  | _ => true

/-- `Object.keys(v).length` on the embedded value shapes. -/
def objKeysLen : JsValue → Nat
  | .boolean _ => 0
  | .number _ => 0
  | .string s => s.length
  | .point2d _ _ => 2
  | .point3d _ _ _ => 3
  | .idObj _ => 1

/-- `RelatedElement.idFromJson` of imodeljs-common (external contract): a
plain id string or an object carrying an `id` field yields the id, anything
else the invalid id `"0"`. -/
def idFromJson : JsValue → String
  | .string s => s
  | .idObj id => id
  | _ => "0"

/-- Lowercase hexadecimal digit test. -/
def isHexDigitLower (c : Char) : Bool := c.isDigit || ('a' ≤ c && c ≤ 'f')

/-- `Id64.isValidId64` of bentleyjs-core (external contract): `0x` followed
by one to sixteen lowercase hex digits, the first nonzero. -/
def isValidId64 (s : String) : Bool :=
  match s.data with
  | '0' :: 'x' :: first :: rest =>
    first != '0' && isHexDigitLower first && decide (rest.length ≤ 15) && rest.all isHexDigitLower
  | _ => false

/-- String suffix test, modelling `String.prototype.endsWith`. -/
def strEndsWith (s suffixStr : String) : Bool :=
  List.isPrefixOf suffixStr.data.reverse s.data.reverse

/-- `property.name[0].toLowerCase() + property.name.substring(1)`: the JSON
field name under which an instance stores a property's value. -/
def jsonPropertyName (s : String) : String :=
  match s.data with
  | [] => ""
  | c :: rest => String.mk (c.toLower :: rest)

-- Definitions of the instance-mapping exporter variant
-- (`src/unnamed/part_000`), whose `writeLabel`/`writeComment` escape via
-- `JSON.stringify` and which maps instance property values.
namespace Inst

/-- `writeLabel` of the instance-mapping exporter: the label is quoted and
escaped by `JSON.stringify`. -/
def writeLabel (rdfName label : String) : List Triple :=
  [⟨rdfName, rdfs.label, jsonQuote label⟩]

/-- `writeComment` of the instance-mapping exporter. -/
def writeComment (rdfName comment : String) : List Triple :=
  [⟨rdfName, rdfs.comment, jsonQuote comment⟩]

/-- `writePropertyValue`: dispatch on the property's kind and primitive type,
emitting at most one line for the given (already truthy) value. -/
def writePropertyValue (inst pred : String) (p : Property) (v : JsValue) : List Triple :=
  if p.isPrimitive then
    match p.primitiveType with
    | .binary =>
      if strTruthy p.extendedTypeName then
        (if lowerStr (p.extendedTypeName.getD "") = "beguid" then [⟨inst, pred, jsStringify v⟩]
         else [])
      else []
    | .point2d => [⟨inst, pred, jsonQuote (jsStringify v)⟩]
    | .point3d => [⟨inst, pred, jsonQuote (jsStringify v)⟩]
    | .string =>
      if (match p.extendedTypeName with
          | some e => lowerStr e == "json"
          | none => false) then
        (if objKeysLen v > 0 then [⟨inst, pred, jsonQuote (jsStringify v)⟩] else [])
      else [⟨inst, pred, jsStringify v⟩]
    | .long =>
      if strTruthy p.extendedTypeName then
        (if lowerStr (p.extendedTypeName.getD "") = "id" then
          (let elementId := idFromJson v
           if elementId != "" && isValidId64 elementId then
             [⟨inst, pred, formatElementInstanceId elementId⟩]
           else [])
         else [⟨inst, pred, jsToString v⟩])
      else []
    | _ => [⟨inst, pred, jsToString v⟩]
  else if p.isNavigation then
    let relatedEntityId := idFromJson v
    if relatedEntityId != "" && isValidId64 relatedEntityId then
      [⟨inst, pred,
        if strEndsWith p.name "Model" then formatModelInstanceId relatedEntityId
        else formatElementInstanceId relatedEntityId⟩]
    else []
  else []

/-- `writeEntityInstanceProperties`: walk the declared properties of the
class, emitting the value triples of the truthy ones under the declaring
class's RDF name, then recurse on the base class. -/
def writeEntityInstanceProperties (env : Env) (entity : String → Option JsValue) :
    ECClass → String → List Triple
  | .mk al s n t b attrs d ps, instName =>
    let entityClassRdfName :=
      formatSchemaItemFullName env (ECClass.fullName (.mk al s n t b attrs d ps))
    ps.flatMap (fun p =>
      match entity (jsonPropertyName p.name) with
      | some v =>
        if jsTruthy v then
          writePropertyValue instName (entityClassRdfName ++ "-" ++ p.name) p v
        else []
      | none => [])
    ++ (match b with
        | some base => writeEntityInstanceProperties env entity base instName
        | none => [])

end Inst

/-! ## Instance prefixes (identical in both exporter variants) -/

/-- `writePrefix(prefix, iri)` appends ``@prefix prefix: <iri> .``. -/
def writePrefixLine (p iriStr : String) : Triple := ⟨"@prefix", p ++ ":", "<" ++ iriStr ++ ">"⟩

/-- Base namespace IRI of an iModel's instance prefixes. -/
def iModelBaseIri (iModelId : String) : String :=
  "http://www.example.org/iModel/" ++ iModelId ++ "/"

/-- `writeInstancePrefixes`, exactly as both sources write it. -/
def writeInstancePrefixes (iModelId : String) : List Triple :=
  [writePrefixLine InstanceKey.element (iModelBaseIri iModelId ++ "codeSpec#"),
   writePrefixLine InstanceKey.elementAspect (iModelBaseIri iModelId ++ "aspect#"),
   writePrefixLine InstanceKey.codeSpec (iModelBaseIri iModelId ++ "element#"),
   writePrefixLine InstanceKey.model (iModelBaseIri iModelId ++ "model#"),
   writePrefixLine InstanceKey.relationship (iModelBaseIri iModelId ++ "relationship#")]

/-! ## JSON decoding (verification side)

To state the round-trip properties the spec promises, a JSON decoder is
defined: a string-literal decoder inverse to `JSON.stringify`'s string
encoding, an integer parser, and parsers for the point object texts. -/

/-- Value of one lowercase hexadecimal digit. -/
def hexVal (c : Char) : Option Nat :=
  if '0' ≤ c ∧ c ≤ '9' then some (c.toNat - 48)
  else if 'a' ≤ c ∧ c ≤ 'f' then some (c.toNat - 87)
  else none

/-- Decode the body of a JSON string literal: process escapes, reject a bare
quote or a raw control character. -/
def unescapeChars : List Char → Option (List Char)
  | [] => some []
  | c :: rest =>
    if c = '\\' then
      match rest with
      | '"' :: r => (unescapeChars r).map (fun l => '"' :: l)
      | '\\' :: r => (unescapeChars r).map (fun l => '\\' :: l)
      | '/' :: r => (unescapeChars r).map (fun l => '/' :: l)
      | 'b' :: r => (unescapeChars r).map (fun l => '\x08' :: l)
      | 'f' :: r => (unescapeChars r).map (fun l => '\x0c' :: l)
      | 'n' :: r => (unescapeChars r).map (fun l => '\n' :: l)
      | 'r' :: r => (unescapeChars r).map (fun l => '\r' :: l)
      | 't' :: r => (unescapeChars r).map (fun l => '\t' :: l)
      | 'u' :: h1 :: h2 :: h3 :: h4 :: r =>
        match hexVal h1, hexVal h2, hexVal h3, hexVal h4 with
        | some a, some b, some c2, some d =>
          (unescapeChars r).map (fun l => Char.ofNat (((a * 16 + b) * 16 + c2) * 16 + d) :: l)
        | _, _, _, _ => none
      | _ => none
    else if c = '"' then none
    else if c.toNat < 32 then none
    else (unescapeChars rest).map (fun l => c :: l)

/-- JSON-decode a complete string literal: leading and trailing quote around
a well-formed escaped body. -/
def decodeJsonStringLit (s : String) : Option String :=
  match s.data with
  | '"' :: rest =>
    match rest.getLast? with
    | some '"' => (unescapeChars rest.dropLast).map String.mk
    | _ => none
  | _ => none

/-- Take the longest leading run of decimal digits. -/
def takeDigits : List Char → List Char × List Char
  | [] => ([], [])
  | c :: rest => if c.isDigit then
      let (d, r) := takeDigits rest
      (c :: d, r)
    else ([], c :: rest)

/-- Value of a big-endian digit list. -/
def digitsVal (l : List Char) : Nat := l.foldl (fun acc c => acc * 10 + (c.toNat - 48)) 0

/-- Parse a leading run of digits as a natural number. -/
def parseNatPart (l : List Char) : Option (Nat × List Char) :=
  let (d, r) := takeDigits l
  if d.isEmpty then none else some (digitsVal d, r)

/-- Parse a leading (optionally negated) decimal integer. -/
def parseIntChars (l : List Char) : Option (Int × List Char) :=
  match l with
  | '-' :: rest => (parseNatPart rest).map (fun p => (-(p.1 : Int), p.2))
  | _ => (parseNatPart l).map (fun p => ((p.1 : Int), p.2))

/-- Expect an exact literal prefix and return the remainder. -/
def stripLit : List Char → List Char → Option (List Char)
  | [], l => some l
  | _ :: _, [] => none
  | p :: ps, c :: cs => if c = p then stripLit ps cs else none

/-- JSON-parse the text of a 2d point object `\x7b"x":<int>,"y":<int>\x7d`. -/
def parsePoint2dChars (l : List Char) : Option (Int × Int) :=
  (stripLit "\x7b\"x\":".data l).bind fun l1 =>
    (parseIntChars l1).bind fun p1 =>
      (stripLit ",\"y\":".data p1.2).bind fun l3 =>
        (parseIntChars l3).bind fun p2 =>
          (stripLit "\x7d".data p2.2).bind fun l5 =>
            if l5.isEmpty then some (p1.1, p2.1) else none

/-- JSON-parse the text of a 3d point object. -/
def parsePoint3dChars (l : List Char) : Option (Int × Int × Int) :=
  (stripLit "\x7b\"x\":".data l).bind fun l1 =>
    (parseIntChars l1).bind fun p1 =>
      (stripLit ",\"y\":".data p1.2).bind fun l3 =>
        (parseIntChars l3).bind fun p2 =>
          (stripLit ",\"z\":".data p2.2).bind fun l5 =>
            (parseIntChars l5).bind fun p3 =>
              (stripLit "\x7d".data p3.2).bind fun l7 =>
                if l7.isEmpty then some (p1.1, p2.1, p3.1) else none

/-- JSON-parse a 2d point from a string. -/
def parsePoint2dS (s : String) : Option (Int × Int) := parsePoint2dChars s.data

/-- JSON-parse a 3d point from a string. -/
def parsePoint3dS (s : String) : Option (Int × Int × Int) := parsePoint3dChars s.data

/-! ## Helper views used by the theorems -/

/-- Every class on the single-inheritance chain starting at `c`, most-derived
first. -/
def chainClasses : ECClass → List ECClass
  | .mk al s n t b attrs d ps =>
    ECClass.mk al s n t b attrs d ps ::
      (match b with
       | some base => chainClasses base
       | none => [])

/-- Root ancestor of the single-inheritance chain. -/
def rootClass : ECClass → ECClass
  | .mk _ _ _ _ (some base) _ _ _ => rootClass base
  | c => c

/-- Every class on the base-class chain is a relationship class (the shape
the EC metadata model guarantees for a relationship class's ancestry). -/
def relationshipChainOnly : ECClass → Bool
  | .mk _ _ _ t b _ _ _ =>
    (t == SchemaItemType.relationshipClass) &&
      (match b with
       | some base => relationshipChainOnly base
       | none => true)

/-- The object of the first `rdfs:range` line of an emission. -/
def rangeObjOf (e : Emit) : Option String :=
  (e.1.find? (fun t => t.pred == rdfs.range)).map Triple.obj

/-- The `subClassOf` lines of a line list whose subject is `subj`. -/
def subClassOfLines (lines : List Triple) (subj : String) : List Triple :=
  lines.filter (fun t => t.subj == subj && t.pred == rdfs.subClassOf)

/-- The IRI a prefix is bound to by a run of `@prefix` lines. -/
def boundIri (lines : List Triple) (p : String) : Option String :=
  (lines.find? (fun t => t.subj == "@prefix" && t.pred == p ++ ":")).map Triple.obj

/-! ## Concrete schema and instance material used to evaluate the theorems -/

/-- A trivial environment: every schema resolves to alias `bis`, no
relationship classes. -/
def env0 : Env := ⟨fun _ => "bis", fun _ => none⟩

/-- A scalar primitive property with no extended type and no description. -/
def primProp (nm : String) (pt : PrimitiveType) : Property :=
  { name := nm, description := none, isArray := false, isPrimitive := true,
    isEnumeration := false, isNavigation := false, isStruct := false,
    primitiveType := pt, extendedTypeName := none, enumerationFullName := none,
    relationshipFullName := "", direction := .forward }

/-- The `Widget` class of the spec's concrete scenario: no declared base,
kind EntityClass, a string property `Name` and an integer property `Count`. -/
def widgetClass : ECClass :=
  .mk "alias" "SampleSchema" "Widget" .entityClass none [] none
    [primProp "Name" .string, primProp "Count" .integer]

/-- The line sequence the spec's concrete scenario claims for `Widget`:
per property, `subClassOf`, `domain`, `range` and then the label. -/
def widgetClaimedLines : List Triple :=
  [⟨"alias:Widget", "rdfs:subClassOf", "ec:EntityClass"⟩,
   ⟨"alias:Widget", "rdfs:label", "\"alias:Widget\""⟩,
   ⟨"alias:Widget-Name", "rdfs:subClassOf", "ec:PrimitiveProperty"⟩,
   ⟨"alias:Widget-Name", "rdfs:domain", "alias:Widget"⟩,
   ⟨"alias:Widget-Name", "rdfs:range", "xsd:string"⟩,
   ⟨"alias:Widget-Name", "rdfs:label", "\"alias:Widget.Name\""⟩,
   ⟨"alias:Widget-Count", "rdfs:subClassOf", "ec:PrimitiveProperty"⟩,
   ⟨"alias:Widget-Count", "rdfs:domain", "alias:Widget"⟩,
   ⟨"alias:Widget-Count", "rdfs:range", "xsd:integer"⟩,
   ⟨"alias:Widget-Count", "rdfs:label", "\"alias:Widget.Count\""⟩]

/-- The line sequence `writeClass` actually emits for `Widget`: per property
the label comes first, before `subClassOf`/`domain`/`range`. -/
def widgetEmittedLines : List Triple :=
  [⟨"alias:Widget", "rdfs:subClassOf", "ec:EntityClass"⟩,
   ⟨"alias:Widget", "rdfs:label", "\"alias:Widget\""⟩,
   ⟨"alias:Widget-Name", "rdfs:label", "\"alias:Widget.Name\""⟩,
   ⟨"alias:Widget-Name", "rdfs:subClassOf", "ec:PrimitiveProperty"⟩,
   ⟨"alias:Widget-Name", "rdfs:domain", "alias:Widget"⟩,
   ⟨"alias:Widget-Name", "rdfs:range", "xsd:string"⟩,
   ⟨"alias:Widget-Count", "rdfs:label", "\"alias:Widget.Count\""⟩,
   ⟨"alias:Widget-Count", "rdfs:subClassOf", "ec:PrimitiveProperty"⟩,
   ⟨"alias:Widget-Count", "rdfs:domain", "alias:Widget"⟩,
   ⟨"alias:Widget-Count", "rdfs:range", "xsd:integer"⟩]

/-- A root relationship class without the link-table custom attribute. -/
def relRootNoMarker : ECClass :=
  .mk "bis" "BisCore" "BaseRel" .relationshipClass none [] none []

/-- A relationship class derived from `relRootNoMarker`. -/
def relDerived : ECClass :=
  .mk "bis" "BisCore" "DerivedRel" .relationshipClass (some relRootNoMarker) [] none []

/-- An environment resolving the relationship `S.Rel` with target constraint
classes `[S.A, S.B]` and an absent source constraint-class list. -/
def envC2 : Env :=
  ⟨fun _ => "s", fun fn => if fn = "S.Rel" then some ⟨none, some ["S.A", "S.B"]⟩ else none⟩

/-- A forward navigation property over `S.Rel`. -/
def navPropForward : Property :=
  { name := "Owner", description := none, isArray := false, isPrimitive := false,
    isEnumeration := false, isNavigation := true, isStruct := false,
    primitiveType := .uninitialized, extendedTypeName := none, enumerationFullName := none,
    relationshipFullName := "S.Rel", direction := .forward }

/-- A binary property with extended type `BeGuid` (mixed case). -/
def beguidProp : Property :=
  { primProp "FederationGuid" .binary with extendedTypeName := some "BeGuid" }

/-- A long property with extended type `Id` (mixed case). -/
def longIdProp : Property :=
  { primProp "CodeValueId" .long with extendedTypeName := some "Id" }

/-- A long property with no extended type. -/
def longPlainProp : Property := primProp "LastMod" .long

/-- A 2d point property. -/
def point2dProp : Property := primProp "Origin" .point2d

/-- A 3d point property. -/
def point3dProp : Property := primProp "Center" .point3d

/-- A class with two string properties, used to exercise the instance
mapper. -/
def elementBaseClass : ECClass :=
  .mk "bis" "BisCore" "Element" .entityClass none [] none
    [primProp "CodeValue" .string, primProp "UserLabel" .string]

/-- An entity holding a value only for `codeValue`; `userLabel` is absent. -/
def sparseEntity : String → Option JsValue :=
  fun k => if k = "codeValue" then some (.string "Acme") else none

/-! ## General lemmas -/

/-- A formatted full name contains a colon, hence is never empty. -/
lemma formatSchemaItemFullName_ne_empty (env : Env) (fn : String) :
    formatSchemaItemFullName env fn ≠ "" := by
  unfold formatSchemaItemFullName
  intro h
  have hlen := congrArg String.length h
  have h1 : (":" : String).length = 1 := rfl
  have h2 : ("" : String).length = 0 := rfl
  rw [String.length_append, String.length_append, h1, h2] at hlen
  omega

/-- A relationship class whose whole base chain consists of relationship
classes and whose root lacks the link-table marker is classified as a
navigation relationship. -/
lemma isNav_of_chain :
    ∀ c : ECClass, relationshipChainOnly c = true →
      ((rootClass c).customAttributes.contains "ECDbMap.LinkTableRelationshipMap") = false →
      isNavigationRelationship c = true
  | .mk al s n t (some base) attrs d ps, h1, h2 => by
    simp only [relationshipChainOnly, Bool.and_eq_true, beq_iff_eq] at h1
    have hroot : rootClass (ECClass.mk al s n t (some base) attrs d ps) = rootClass base := rfl
    rw [hroot] at h2
    have hrec := isNav_of_chain base h1.2 h2
    simp [isNavigationRelationship, h1.1, hrec]
  | .mk al s n t none attrs d ps, h1, h2 => by
    simp only [relationshipChainOnly, Bool.and_eq_true, beq_iff_eq] at h1
    have hroot : rootClass (ECClass.mk al s n t none attrs d ps)
        = ECClass.mk al s n t none attrs d ps := rfl
    rw [hroot] at h2
    simp only [ECClass.customAttributes] at h2
    simp [isNavigationRelationship, h1.1]
    simpa using h2

/-- Claim C1: for a relationship class (its entire single-inheritance chain
consisting of relationship classes, as the EC metadata model guarantees)
whose root ancestor does not carry the `ECDbMap.LinkTableRelationshipMap`
custom attribute, `writeClass` emits no triple at all — in particular such a
class is never the subject of a `subClassOf` triple written by the class
mapper. -/
theorem claim_C1_nav_relationship_skipped (env : Env) (c : ECClass)
    (h1 : relationshipChainOnly c = true)
    (h2 : ((rootClass c).customAttributes.contains "ECDbMap.LinkTableRelationshipMap") = false) :
    writeClass env c = ([], none) := by
  rw [writeClass]
  simp [isNav_of_chain c h1 h2, emitAll]

/-- Witness for C1 at the concrete two-class relationship chain. -/
theorem claim_C1_nav_relationship_skipped_witness :
    relationshipChainOnly relDerived = true ∧
    ((rootClass relDerived).customAttributes.contains "ECDbMap.LinkTableRelationshipMap") = false ∧
    writeClass env0 relDerived = ([], none) :=
  ⟨by decide, by decide,
    claim_C1_nav_relationship_skipped env0 relDerived (by decide) (by decide)⟩

/-- Counterexample to claim C5 as stated: `writeClass` does not produce the
spec's claimed line order for `Widget`, because each property's label line
is emitted before its `subClassOf`/`domain`/`range` lines, not after. -/
theorem claim_C5_counterexample :
    (writeClass env0 widgetClass).1 ≠ widgetClaimedLines := by decide

/-- Claim C5 as amended: mapping `Widget` emits exactly the ten claimed
lines, but with each property's label line first in its group of four. -/
theorem claim_C5_widget_scenario :
    writeClass env0 widgetClass = (widgetEmittedLines, none) := by decide

/-- Claim C10: `writeInstancePrefixes` binds the element instance prefix to
the IRI ending in `codeSpec#` and the code-spec instance prefix to the IRI
ending in `element#` (the two are swapped), while the aspect, model and
relationship prefixes get the IRI fragment matching their own kind. -/
theorem claim_C10_instance_prefix_swap (iModelId : String) :
    ∃ base : String,
      boundIri (writeInstancePrefixes iModelId) "elementId" = some ("<" ++ (base ++ "codeSpec#") ++ ">") ∧
      boundIri (writeInstancePrefixes iModelId) "codeSpecId" = some ("<" ++ (base ++ "element#") ++ ">") ∧
      boundIri (writeInstancePrefixes iModelId) "aspectId" = some ("<" ++ (base ++ "aspect#") ++ ">") ∧
      boundIri (writeInstancePrefixes iModelId) "modelId" = some ("<" ++ (base ++ "model#") ++ ">") ∧
      boundIri (writeInstancePrefixes iModelId) "relationshipId" = some ("<" ++ (base ++ "relationship#") ++ ">") := by
  refine ⟨iModelBaseIri iModelId, ?_, ?_, ?_, ?_, ?_⟩ <;>
    simp [boundIri, writeInstancePrefixes, writePrefixLine, InstanceKey.element,
      InstanceKey.elementAspect, InstanceKey.codeSpec, InstanceKey.model,
      InstanceKey.relationship, List.find?]

/-- The `rdfs:range` line of a property-triple block carries exactly the
nonempty range that was passed in. -/
lemma rangeObjOf_writePropertyTriples (cn pn sc r : String) (cm : Option String)
    (hr : r ≠ "") :
    rangeObjOf (emitAll (writePropertyTriples cn pn sc (some r) cm)) = some r := by
  simp [rangeObjOf, emitAll, writePropertyTriples, writeLabel, writeComment, strTruthy, hr,
    List.find?, rdfs.range, rdfs.label, rdfs.subClassOf, rdfs.domain]

/-- Claim C2: the range of a navigation property is the first class of the
target constraint for forward direction and of the source constraint for
backward direction — never a later element — and defaults to
`ec:EntityClass` when the constraint's class list is absent (`undefined`,
the API state when no constraint classes are listed). -/
theorem claim_C2_navigation_range (env : Env) (cn : String) (p : Property)
    (rc : RelationshipEnds)
    (hrel : env.relationshipConstraints p.relationshipFullName = some rc) :
    (p.direction = .forward →
      (rc.target = none →
        rangeObjOf (writeNavigationProperty env cn p) = some ec.EntityClass) ∧
      (∀ a rest, rc.target = some (a :: rest) →
        rangeObjOf (writeNavigationProperty env cn p) = some (formatSchemaItemFullName env a))) ∧
    (p.direction = .backward →
      (rc.source = none →
        rangeObjOf (writeNavigationProperty env cn p) = some ec.EntityClass) ∧
      (∀ a rest, rc.source = some (a :: rest) →
        rangeObjOf (writeNavigationProperty env cn p) = some (formatSchemaItemFullName env a))) := by
  constructor
  · intro hdir
    constructor
    · intro htgt
      rw [writeNavigationProperty, hrel]
      simp only [navigationRangeResult, hdir, htgt]
      exact rangeObjOf_writePropertyTriples _ _ _ _ _ (by decide)
    · intro a rest htgt
      rw [writeNavigationProperty, hrel]
      simp only [navigationRangeResult, hdir, htgt]
      exact rangeObjOf_writePropertyTriples _ _ _ _ _ (formatSchemaItemFullName_ne_empty env a)
  · intro hdir
    constructor
    · intro hsrc
      rw [writeNavigationProperty, hrel]
      simp only [navigationRangeResult, hdir, hsrc]
      exact rangeObjOf_writePropertyTriples _ _ _ _ _ (by decide)
    · intro a rest hsrc
      rw [writeNavigationProperty, hrel]
      simp only [navigationRangeResult, hdir, hsrc]
      exact rangeObjOf_writePropertyTriples _ _ _ _ _ (formatSchemaItemFullName_ne_empty env a)

/-- Witness for C2: a forward navigation property over a relationship with
target constraint classes `[S.A, S.B]` ranges over the first class `S.A`. -/
theorem claim_C2_navigation_range_witness :
    envC2.relationshipConstraints navPropForward.relationshipFullName
      = some ⟨none, some ["S.A", "S.B"]⟩ ∧
    rangeObjOf (writeNavigationProperty envC2 "s:Widget" navPropForward) = some "s:A" :=
  ⟨by decide,
    by
      have h := (claim_C2_navigation_range envC2 "s:Widget" navPropForward
        ⟨none, some ["S.A", "S.B"]⟩ (by decide)).1 rfl
      have h2 := h.2 "S.A" ["S.B"] rfl
      simpa using h2⟩

/-- Claim C3: the primitive-type range table of `writePrimitiveProperty` —
binary maps to `xsd:base64Binary` unless the extended type is (case
insensitively) `beguid`, string maps to `xsd:string` unless the extended
type is `json`, unrecognized or untruthy extended types fall back to the
base mapping, the remaining eight primitive types map to their fixed terms,
and a primitive type outside the closed set throws
`Unexpected PrimitiveType` without emitting any triple. -/
theorem claim_C3_primitive_range_table (cn : String) (p : Property) :
    (p.primitiveType = .binary →
      (strTruthy p.extendedTypeName = true → lowerStr (p.extendedTypeName.getD "") = "beguid" →
        rangeObjOf (writePrimitiveProperty cn p) = some ec.GuidString) ∧
      (strTruthy p.extendedTypeName = false ∨ lowerStr (p.extendedTypeName.getD "") ≠ "beguid" →
        rangeObjOf (writePrimitiveProperty cn p) = some xsd.base64Binary)) ∧
    (p.primitiveType = .string →
      (strTruthy p.extendedTypeName = true → lowerStr (p.extendedTypeName.getD "") = "json" →
        rangeObjOf (writePrimitiveProperty cn p) = some ec.JsonString) ∧
      (strTruthy p.extendedTypeName = false ∨ lowerStr (p.extendedTypeName.getD "") ≠ "json" →
        rangeObjOf (writePrimitiveProperty cn p) = some xsd.string)) ∧
    (p.primitiveType = .boolean → rangeObjOf (writePrimitiveProperty cn p) = some xsd.boolean) ∧
    (p.primitiveType = .dateTime → rangeObjOf (writePrimitiveProperty cn p) = some xsd.dateTime) ∧
    (p.primitiveType = .double → rangeObjOf (writePrimitiveProperty cn p) = some xsd.double) ∧
    (p.primitiveType = .iGeometry → rangeObjOf (writePrimitiveProperty cn p) = some ec.IGeometry) ∧
    (p.primitiveType = .integer → rangeObjOf (writePrimitiveProperty cn p) = some xsd.integer) ∧
    (p.primitiveType = .long → rangeObjOf (writePrimitiveProperty cn p) = some xsd.long) ∧
    (p.primitiveType = .point2d → rangeObjOf (writePrimitiveProperty cn p) = some ec.Point2d) ∧
    (p.primitiveType = .point3d → rangeObjOf (writePrimitiveProperty cn p) = some ec.Point3d) ∧
    (p.primitiveType = .uninitialized →
      writePrimitiveProperty cn p = ([], some "Unexpected PrimitiveType")) := by
  refine ⟨?_, ?_, ?_, ?_, ?_, ?_, ?_, ?_, ?_, ?_, ?_⟩
  · intro h
    constructor
    · intro hst hlo
      rw [writePrimitiveProperty]
      simp only [primitiveRangeResult, h]
      rw [if_pos hst, if_pos hlo]
      exact rangeObjOf_writePropertyTriples _ _ _ _ _ (by decide)
    · intro hcase
      rw [writePrimitiveProperty]
      simp only [primitiveRangeResult, h]
      cases hst : strTruthy p.extendedTypeName
      · rw [if_neg (by simp [hst])]
        exact rangeObjOf_writePropertyTriples _ _ _ _ _ (by decide)
      · have hlo : lowerStr (p.extendedTypeName.getD "") ≠ "beguid" := by
          rcases hcase with hc | hc
          · rw [hst] at hc; cases hc
          · exact hc
        rw [if_pos rfl, if_neg hlo]
        exact rangeObjOf_writePropertyTriples _ _ _ _ _ (by decide)
  · intro h
    constructor
    · intro hst hlo
      rw [writePrimitiveProperty]
      simp only [primitiveRangeResult, h]
      rw [if_pos hst, if_pos hlo]
      exact rangeObjOf_writePropertyTriples _ _ _ _ _ (by decide)
    · intro hcase
      rw [writePrimitiveProperty]
      simp only [primitiveRangeResult, h]
      cases hst : strTruthy p.extendedTypeName
      · rw [if_neg (by simp [hst])]
        exact rangeObjOf_writePropertyTriples _ _ _ _ _ (by decide)
      · have hlo : lowerStr (p.extendedTypeName.getD "") ≠ "json" := by
          rcases hcase with hc | hc
          · rw [hst] at hc; cases hc
          · exact hc
        rw [if_pos rfl, if_neg hlo]
        exact rangeObjOf_writePropertyTriples _ _ _ _ _ (by decide)
  all_goals intro h
  · rw [writePrimitiveProperty]; simp only [primitiveRangeResult, h]
    exact rangeObjOf_writePropertyTriples _ _ _ _ _ (by decide)
  · rw [writePrimitiveProperty]; simp only [primitiveRangeResult, h]
    exact rangeObjOf_writePropertyTriples _ _ _ _ _ (by decide)
  · rw [writePrimitiveProperty]; simp only [primitiveRangeResult, h]
    exact rangeObjOf_writePropertyTriples _ _ _ _ _ (by decide)
  · rw [writePrimitiveProperty]; simp only [primitiveRangeResult, h]
    exact rangeObjOf_writePropertyTriples _ _ _ _ _ (by decide)
  · rw [writePrimitiveProperty]; simp only [primitiveRangeResult, h]
    exact rangeObjOf_writePropertyTriples _ _ _ _ _ (by decide)
  · rw [writePrimitiveProperty]; simp only [primitiveRangeResult, h]
    exact rangeObjOf_writePropertyTriples _ _ _ _ _ (by decide)
  · rw [writePrimitiveProperty]; simp only [primitiveRangeResult, h]
    exact rangeObjOf_writePropertyTriples _ _ _ _ _ (by decide)
  · rw [writePrimitiveProperty]; simp only [primitiveRangeResult, h]
    exact rangeObjOf_writePropertyTriples _ _ _ _ _ (by decide)
  · rw [writePrimitiveProperty]; simp only [primitiveRangeResult, h]
    rfl

/-- Witness for C3: the mixed-case extended type `BeGuid` on a binary
property produces the `ec:GuidString` range. -/
theorem claim_C3_primitive_range_table_witness :
    beguidProp.primitiveType = .binary ∧
    strTruthy beguidProp.extendedTypeName = true ∧
    lowerStr (beguidProp.extendedTypeName.getD "") = "beguid" ∧
    rangeObjOf (writePrimitiveProperty "bis:Element" beguidProp) = some ec.GuidString :=
  ⟨rfl, by decide, by decide,
    ((claim_C3_primitive_range_table "bis:Element" beguidProp).1 rfl).1 (by decide) (by decide)⟩

/-- Counterexample to claim C8 as stated: a long property with an absent
extended type name emits nothing at all — not the raw value `42` the claim
asserts. -/
theorem claim_C8_counterexample :
    Inst.writePropertyValue "elementId:e0x1" "bis:Element-LastMod" longPlainProp (.number 42) = [] ∧
    Inst.writePropertyValue "elementId:e0x1" "bis:Element-LastMod" longPlainProp (.number 42)
      ≠ [⟨"elementId:e0x1", "bis:Element-LastMod", "42"⟩] := by
  constructor <;> decide

/-- Claim C8 as amended: a long value with extended type `id` (case
insensitive) is emitted as a Formatter-produced element instance reference
exactly when it parses to a truthy, syntactically valid 64-bit id, and is
dropped otherwise; a long value whose extended type is present but not `id`
is emitted raw; a long value with an absent (or empty) extended type emits
nothing; integer, boolean, double, datetime and geometry values are emitted
raw. -/
theorem claim_C8_long_value_dispatch (inst pred : String) (p : Property) (v : JsValue)
    (hp : p.isPrimitive = true) :
    (p.primitiveType = .long →
      (∀ e, p.extendedTypeName = some e → e ≠ "" → lowerStr e = "id" →
        ((idFromJson v ≠ "" ∧ isValidId64 (idFromJson v) = true →
            Inst.writePropertyValue inst pred p v
              = [⟨inst, pred, formatElementInstanceId (idFromJson v)⟩]) ∧
         (¬(idFromJson v ≠ "" ∧ isValidId64 (idFromJson v) = true) →
            Inst.writePropertyValue inst pred p v = []))) ∧
      (∀ e, p.extendedTypeName = some e → e ≠ "" → lowerStr e ≠ "id" →
        Inst.writePropertyValue inst pred p v = [⟨inst, pred, jsToString v⟩]) ∧
      (strTruthy p.extendedTypeName = false →
        Inst.writePropertyValue inst pred p v = [])) ∧
    ((p.primitiveType = .integer ∨ p.primitiveType = .boolean ∨ p.primitiveType = .double ∨
        p.primitiveType = .dateTime ∨ p.primitiveType = .iGeometry) →
      Inst.writePropertyValue inst pred p v = [⟨inst, pred, jsToString v⟩]) := by
  constructor
  · intro hl
    refine ⟨fun e he hne hid => ⟨fun hv => ?_, fun hnv => ?_⟩, fun e he hne hnid => ?_, fun hf => ?_⟩
    · rw [Inst.writePropertyValue]
      simp only [hp, if_true, hl, he, Option.getD_some]
      rw [if_pos (by simp [strTruthy, he, hne]), if_pos hid]
      rw [if_pos (by simp [hv.1, hv.2])]
    · rw [Inst.writePropertyValue]
      simp only [hp, if_true, hl, he, Option.getD_some]
      rw [if_pos (by simp [strTruthy, he, hne]), if_pos hid]
      rw [if_neg (by
        intro hcond
        rw [Bool.and_eq_true, bne_iff_ne] at hcond
        exact hnv ⟨hcond.1, hcond.2⟩)]
    · rw [Inst.writePropertyValue]
      simp only [hp, if_true, hl, he, Option.getD_some]
      rw [if_pos (by simp [strTruthy, he, hne]), if_neg hnid]
    · rw [Inst.writePropertyValue]
      simp only [hp, if_true, hl]
      rw [if_neg (by simp [hf])]
  · intro ho
    rw [Inst.writePropertyValue]
    simp only [hp, if_true]
    rcases ho with h | h | h | h | h <;> rw [h]

/-- Witness for C8 at concrete inputs: a long value with mixed-case extended
type `Id` holding a valid id emits the element-reference form. -/
theorem claim_C8_long_value_dispatch_witness :
    longIdProp.isPrimitive = true ∧
    Inst.writePropertyValue "i" "p" longIdProp (.string "0x1a")
      = [⟨"i", "p", formatElementInstanceId "0x1a"⟩] :=
  ⟨rfl,
    (((claim_C8_long_value_dispatch "i" "p" longIdProp (.string "0x1a") rfl).1 rfl).1
      "Id" rfl (by decide) (by decide)).1 ⟨by decide, by decide⟩⟩

/-! ## Machinery for claim C4: the supertype triple of `writeClass` -/

/-- Appending a hyphen-led suffix never returns the original string. -/
lemma hyphen_append_ne (cn pn : String) : cn ++ "-" ++ pn ≠ cn := by
  intro he
  have hlen := congrArg String.length he
  have h1 : ("-" : String).length = 1 := rfl
  rw [String.length_append, String.length_append, h1] at hlen
  omega

/-- Every triple of a property block has the property's RDF name — the class
RDF name extended by a hyphen — as its subject. -/
lemma subj_of_mem_writePropertyTriples {cn pn sc : String} {rg cm : Option String} {t : Triple}
    (h : t ∈ writePropertyTriples cn pn sc rg cm) : t.subj = cn ++ "-" ++ pn := by
  simp only [writePropertyTriples] at h
  rcases List.mem_append.1 h with h | h
  · rcases List.mem_append.1 h with h | h
    · rcases List.mem_append.1 h with h | h
      · rw [writeLabel] at h
        simp only [List.mem_cons, List.not_mem_nil, or_false] at h
        rw [h]
      · simp only [List.mem_cons, List.not_mem_nil, or_false] at h
        rcases h with h | h <;> rw [h]
    · split at h
      · simp only [List.mem_cons, List.not_mem_nil, or_false] at h
        rw [h]
      · simp at h
  · split at h
    · rw [writeComment] at h
      simp only [List.mem_cons, List.not_mem_nil, or_false] at h
      rw [h]
    · simp at h

/-- Every triple of `writePrimitiveProperty` has the property RDF name as
subject. -/
lemma subj_of_mem_writePrimitiveProperty {cn : String} {p : Property} {t : Triple}
    (h : t ∈ (writePrimitiveProperty cn p).1) : t.subj = cn ++ "-" ++ p.name := by
  rw [writePrimitiveProperty] at h
  split at h
  · simp [emitFail] at h
  · exact subj_of_mem_writePropertyTriples (by simpa [emitAll] using h)

/-- Every triple of `writeNavigationProperty` has the property RDF name as
subject. -/
lemma subj_of_mem_writeNavigationProperty {env : Env} {cn : String} {p : Property} {t : Triple}
    (h : t ∈ (writeNavigationProperty env cn p).1) : t.subj = cn ++ "-" ++ p.name := by
  rw [writeNavigationProperty] at h
  split at h
  · simp [emitFail] at h
  · split at h
    · simp [emitFail] at h
    · exact subj_of_mem_writePropertyTriples (by simpa [emitAll] using h)

/-- Every triple of `writeProperty` has the property RDF name as subject. -/
lemma subj_of_mem_writeProperty {env : Env} {cn : String} {p : Property} {t : Triple}
    (h : t ∈ (writeProperty env cn p).1) : t.subj = cn ++ "-" ++ p.name := by
  rw [writeProperty] at h
  split at h
  · split at h <;> exact subj_of_mem_writePropertyTriples (by simpa [emitAll] using h)
  · split at h
    · split at h
      · exact subj_of_mem_writePropertyTriples (by simpa [emitAll] using h)
      · split at h
        · exact subj_of_mem_writePrimitiveProperty h
        · simp [emitAll] at h
    · split at h
      · exact subj_of_mem_writeNavigationProperty h
      · split at h
        · exact subj_of_mem_writePropertyTriples (by simpa [emitAll] using h)
        · split at h
          · exact subj_of_mem_writePrimitiveProperty h
          · simp [emitAll] at h

/-- Lines of a fold of sequenced property emissions come from the start value
or from one of the properties. -/
lemma mem_foldl_seq {env : Env} {cn : String} (ps : List Property) (init : Emit) :
    ∀ t ∈ (ps.foldl (fun acc p => Emit.seq acc (writeProperty env cn p)) init).1,
      t ∈ init.1 ∨ ∃ p ∈ ps, t ∈ (writeProperty env cn p).1 := by
  induction ps generalizing init with
  | nil => exact fun t ht => .inl ht
  | cons p ps ih =>
    intro t ht
    rcases ih (Emit.seq init (writeProperty env cn p)) t ht with h | h
    · rw [Emit.seq] at h
      split at h
      · exact .inl h
      · rcases List.mem_append.1 h with h | h
        · exact .inl h
        · exact .inr ⟨p, by simp, h⟩
    · rcases h with ⟨q, hq, hmem⟩
      exact .inr ⟨q, by simp [hq], hmem⟩

/-- The label, comment and property lines that `writeClass` appends after
the supertype triple contain no `subClassOf` line whose subject is the class
RDF name itself: property lines use the hyphen-extended property RDF name,
and label/comment lines use other predicates. -/
lemma subClassOfLines_rest (env : Env) (cn : String) (d : Option String) (ps : List Property) :
    subClassOfLines
      (Emit.seq (emitAll (writeLabel cn cn))
        (Emit.seq (if strTruthy d then emitAll (writeComment cn (d.getD "")) else emitAll [])
          (ps.foldl (fun acc p => Emit.seq acc (writeProperty env cn p)) (emitAll [])))).1 cn
      = [] := by
  rw [subClassOfLines, List.filter_eq_nil_iff]
  intro t ht
  cases hd : strTruthy d <;>
    simp only [hd, Bool.false_eq_true, if_false, if_true, Emit.seq, emitAll,
      List.nil_append] at ht
  · rcases List.mem_append.1 ht with h | h
    · rw [writeLabel] at h
      simp only [List.mem_cons, List.not_mem_nil, or_false] at h
      rw [h]
      simp [rdfs.label, rdfs.subClassOf]
    · rcases mem_foldl_seq ps (emitAll []) t (by simpa [emitAll] using h) with h2 | ⟨p, _, hmem⟩
      · simp [emitAll] at h2
      · have hsubj := subj_of_mem_writeProperty hmem
        simp only [Bool.and_eq_true, beq_iff_eq, not_and]
        intro hcl
        exact absurd (hsubj ▸ hcl) (hyphen_append_ne _ _)
  · rcases List.mem_append.1 ht with h | h
    · rw [writeLabel] at h
      simp only [List.mem_cons, List.not_mem_nil, or_false] at h
      rw [h]
      simp [rdfs.label, rdfs.subClassOf]
    · rcases List.mem_append.1 h with h | h
      · rw [writeComment] at h
        simp only [List.mem_cons, List.not_mem_nil, or_false] at h
        rw [h]
        simp [rdfs.comment, rdfs.subClassOf]
      · rcases mem_foldl_seq ps (emitAll []) t (by simpa [emitAll] using h) with h2 | ⟨p, _, hmem⟩
        · simp [emitAll] at h2
        · have hsubj := subj_of_mem_writeProperty hmem
          simp only [Bool.and_eq_true, beq_iff_eq, not_and]
          intro hcl
          exact absurd (hsubj ▸ hcl) (hyphen_append_ne _ _)

/-- Counterexample to claim C4 as stated: a relationship class with no
declared base and without the link-table marker is skipped as a navigation
relationship, so `writeClass` emits no `subClassOf` triple for it at all —
not the claimed single triple with object `ec:RelationshipClass`. -/
theorem claim_C4_counterexample :
    relRootNoMarker.baseClass = none ∧
    relRootNoMarker.schemaItemType = .relationshipClass ∧
    subClassOfLines (writeClass env0 relRootNoMarker).1 (formatSchemaItem relRootNoMarker)
      = [] := by
  refine ⟨rfl, rfl, ?_⟩
  decide

/-- Composition: the `subClassOf` lines of a non-skipped `writeClass` body
whose supertype step emitted the single triple `T` with the class as subject
are exactly `[T]`. -/
lemma subClassOfLines_writeClass_body (env : Env) (cn : String) (T : Triple)
    (d : Option String) (ps : List Property)
    (hT : T.subj = cn) (hTp : T.pred = rdfs.subClassOf) :
    subClassOfLines
      (Emit.seq (emitAll [T])
        (Emit.seq (emitAll (writeLabel cn cn))
          (Emit.seq (if strTruthy d then emitAll (writeComment cn (d.getD "")) else emitAll [])
            (ps.foldl (fun acc p => Emit.seq acc (writeProperty env cn p)) (emitAll []))))).1 cn
      = [T] := by
  have houter :
      (Emit.seq (emitAll [T])
        (Emit.seq (emitAll (writeLabel cn cn))
          (Emit.seq (if strTruthy d then emitAll (writeComment cn (d.getD "")) else emitAll [])
            (ps.foldl (fun acc p => Emit.seq acc (writeProperty env cn p)) (emitAll []))))).1
      = T :: (Emit.seq (emitAll (writeLabel cn cn))
          (Emit.seq (if strTruthy d then emitAll (writeComment cn (d.getD "")) else emitAll [])
            (ps.foldl (fun acc p => Emit.seq acc (writeProperty env cn p)) (emitAll [])))).1 := rfl
  have hrest := subClassOfLines_rest env cn d ps
  rw [subClassOfLines] at hrest ⊢
  rw [houter, List.filter_cons, hrest]
  simp [hT, hTp, rdfs.subClassOf]

/-- Claim C4 as amended: for every class that is not skipped as a navigation
relationship, `writeClass` emits exactly one `subClassOf` triple with the
class itself as subject; for a baseless class its object is dispatched on the
kind over the closed five-kind set, any other kind throws
`Unexpected class type` with no triple emitted, and for a class with a
declared base the object is the base class's RDF name with no kind
dispatch. -/
theorem claim_C4_supertype_dispatch (env : Env) (c : ECClass)
    (hnav : isNavigationRelationship c = false) :
    (c.baseClass = none →
      (c.schemaItemType = .customAttributeClass →
        subClassOfLines (writeClass env c).1 (formatSchemaItem c)
          = [⟨formatSchemaItem c, rdfs.subClassOf, ec.CustomAttributeClass⟩]) ∧
      (c.schemaItemType = .entityClass →
        subClassOfLines (writeClass env c).1 (formatSchemaItem c)
          = [⟨formatSchemaItem c, rdfs.subClassOf, ec.EntityClass⟩]) ∧
      (c.schemaItemType = .enumeration →
        subClassOfLines (writeClass env c).1 (formatSchemaItem c)
          = [⟨formatSchemaItem c, rdfs.subClassOf, ec.Enumeration⟩]) ∧
      (c.schemaItemType = .mixin →
        subClassOfLines (writeClass env c).1 (formatSchemaItem c)
          = [⟨formatSchemaItem c, rdfs.subClassOf, ec.Mixin⟩]) ∧
      (c.schemaItemType = .relationshipClass →
        subClassOfLines (writeClass env c).1 (formatSchemaItem c)
          = [⟨formatSchemaItem c, rdfs.subClassOf, ec.RelationshipClass⟩]) ∧
      ((c.schemaItemType = .structClass ∨ c.schemaItemType = .kindOfQuantity ∨
          c.schemaItemType = .propertyCategory) →
        writeClass env c = ([], some "Unexpected class type"))) ∧
    (∀ b, c.baseClass = some b →
      subClassOfLines (writeClass env c).1 (formatSchemaItem c)
        = [⟨formatSchemaItem c, rdfs.subClassOf, formatSchemaItem b⟩]) := by
  cases c with
  | mk al s n t b attrs d ps =>
    constructor
    · intro hb
      simp only [ECClass.baseClass] at hb
      subst hb
      refine ⟨fun ht => ?_, fun ht => ?_, fun ht => ?_, fun ht => ?_, fun ht => ?_, fun ht => ?_⟩
      all_goals simp only [ECClass.schemaItemType] at ht
      case _ | _ | _ | _ | _ =>
        subst ht
        rw [writeClass, if_neg (by simp [hnav])]
        simp only [ECClass.baseClass, ECClass.schemaItemType, ECClass.description,
          ECClass.properties]
        exact subClassOfLines_writeClass_body env _ _ d ps rfl rfl
      · rcases ht with ht | ht | ht <;>
        · subst ht
          rw [writeClass, if_neg (by simp [hnav])]
          simp only [ECClass.baseClass, ECClass.schemaItemType]
          rfl
    · intro b' hb
      simp only [ECClass.baseClass] at hb
      subst hb
      rw [writeClass, if_neg (by simp [hnav])]
      simp only [ECClass.baseClass, ECClass.description, ECClass.properties]
      exact subClassOfLines_writeClass_body env _ _ d ps rfl rfl

/-- Witness for C4 at the concrete `Widget` class: a baseless entity class
gets exactly the `ec:EntityClass` supertype triple. -/
theorem claim_C4_supertype_dispatch_witness :
    isNavigationRelationship widgetClass = false ∧
    widgetClass.baseClass = none ∧
    widgetClass.schemaItemType = .entityClass ∧
    subClassOfLines (writeClass env0 widgetClass).1 (formatSchemaItem widgetClass)
      = [⟨formatSchemaItem widgetClass, rdfs.subClassOf, ec.EntityClass⟩] :=
  ⟨rfl, rfl, rfl, ((claim_C4_supertype_dispatch env0 widgetClass rfl).1 rfl).2.1 rfl⟩

/-! ## Round-trip lemmas for the JSON string encoding -/

/-- `hexVal` inverts `hexDigitChar` on nibble values. -/
lemma hexVal_hexDigitChar (n : Nat) (h : n < 16) : hexVal (hexDigitChar n) = some n := by
  interval_cases n <;> decide

set_option maxHeartbeats 2000000 in
/-- Decoding inverts `JSON.stringify`'s escaping on every character list. -/
lemma unescape_escape (l : List Char) : unescapeChars (escapeChars l) = some l := by
  induction l with
  | nil => rfl
  | cons c rest ih =>
    rw [escapeChars]
    by_cases h1 : c = '"'
    · subst h1
      rw [show escChar '"' = ['\\', '"'] from by decide]
      simp [unescapeChars, ih]
    by_cases h2 : c = '\\'
    · subst h2
      rw [show escChar '\\' = ['\\', '\\'] from by decide]
      simp [unescapeChars, ih]
    by_cases h3 : c = '\x08'
    · subst h3
      rw [show escChar '\x08' = ['\\', 'b'] from by decide]
      simp [unescapeChars, ih]
    by_cases h4 : c = '\t'
    · subst h4
      rw [show escChar '\t' = ['\\', 't'] from by decide]
      simp [unescapeChars, ih]
    by_cases h5 : c = '\n'
    · subst h5
      rw [show escChar '\n' = ['\\', 'n'] from by decide]
      simp [unescapeChars, ih]
    by_cases h6 : c = '\x0c'
    · subst h6
      rw [show escChar '\x0c' = ['\\', 'f'] from by decide]
      simp [unescapeChars, ih]
    by_cases h7 : c = '\r'
    · subst h7
      rw [show escChar '\r' = ['\\', 'r'] from by decide]
      simp [unescapeChars, ih]
    by_cases h8 : c.toNat < 32
    · rw [show escChar c
          = ['\\', 'u', '0', '0', hexDigitChar (c.toNat / 16), hexDigitChar (c.toNat % 16)] from by
        rw [escChar, if_neg h1, if_neg h2, if_neg h3, if_neg h4, if_neg h5, if_neg h6, if_neg h7,
          if_pos h8]]
      have e1 : hexVal '0' = some 0 := by decide
      have e2 : hexVal (hexDigitChar (c.toNat / 16)) = some (c.toNat / 16) :=
        hexVal_hexDigitChar _ (by omega)
      have e3 : hexVal (hexDigitChar (c.toNat % 16)) = some (c.toNat % 16) :=
        hexVal_hexDigitChar _ (by omega)
      have harith : c.toNat / 16 * 16 + c.toNat % 16 = c.toNat := by omega
      simp [unescapeChars, e1, e2, e3, harith, Char.ofNat_toNat, ih]
    · rw [show escChar c = [c] from by
        rw [escChar, if_neg h1, if_neg h2, if_neg h3, if_neg h4, if_neg h5, if_neg h6, if_neg h7,
          if_neg h8]]
      rw [List.singleton_append, unescapeChars.eq_def]
      simp only [h1, h2, h8, if_false, ite_false, ih, Option.map_some]
      rfl

/-- A string quoted and escaped by `JSON.stringify` decodes back to itself. -/
lemma decode_jsonQuote (s : String) : decodeJsonStringLit (jsonQuote s) = some s := by
  obtain ⟨d⟩ := s
  show decodeJsonStringLit (String.mk ('"' :: escapeChars d ++ ['"'])) = some (String.mk d)
  have h1 : (escapeChars d ++ ['"']).getLast? = some '"' := by
    rw [List.getLast?_concat]
  have h2 : (escapeChars d ++ ['"']).dropLast = escapeChars d := by
    rw [List.dropLast_concat]
  simp [decodeJsonStringLit, h1, h2, unescape_escape]

/-- Counterexample to claim C9 as stated: `writeLabel` of the schema-mapping
exporter (`src/src/TurtleExporter.ts`) wraps the label in bare quotes with no
escaping, so a label containing a double quote yields an object literal that
a JSON decoder rejects rather than round-trips. -/
theorem claim_C9_counterexample :
    (writeLabel "ex:Widget" "say \"hi\"").map Triple.obj = ["\"say \"hi\"\""] ∧
    decodeJsonStringLit "\"say \"hi\"\"" = none := by
  constructor <;> decide

/-- Claim C9 as amended: string literals written through `JSON.stringify` —
as the instance-mapping exporter's `writeLabel` and `writeComment` do —
round-trip exactly through a JSON decoder, for every input string. -/
theorem claim_C9_json_escaping_roundtrip (rdfName text : String) :
    Inst.writeLabel rdfName text = [⟨rdfName, rdfs.label, jsonQuote text⟩] ∧
    Inst.writeComment rdfName text = [⟨rdfName, rdfs.comment, jsonQuote text⟩] ∧
    decodeJsonStringLit (jsonQuote text) = some text :=
  ⟨rfl, rfl, decode_jsonQuote text⟩

/-! ## Round-trip lemmas for decimal integer printing and parsing -/

/-- Digit characters decode back to their value. -/
lemma digitChar_toNat (k : Nat) (h : k < 10) : (digitChar k).toNat = 48 + k := by
  interval_cases k <;> decide

/-- Digit characters satisfy `isDigit`. -/
lemma digitChar_isDigit (k : Nat) (h : k < 10) : (digitChar k).isDigit = true := by
  interval_cases k <;> decide

/-- The digit accumulator splits off its accumulator as a suffix. -/
lemma natToChars_append (fuel : Nat) :
    ∀ (n : Nat) (acc : List Char), natToChars fuel n acc = natToChars fuel n [] ++ acc := by
  induction fuel with
  | zero => intro n acc; rfl
  | succ fuel ih =>
    intro n acc
    rw [natToChars, natToChars]
    by_cases hn : n = 0
    · rw [if_pos hn, if_pos hn]
      rfl
    · rw [if_neg hn, if_neg hn]
      rw [ih (n / 10) (digitChar (n % 10) :: acc), ih (n / 10) [digitChar (n % 10)]]
      simp

/-- Folding the decimal-value step from an arbitrary start. -/
lemma foldl_digits_eq (l : List Char) :
    ∀ i : Nat, l.foldl (fun acc c => acc * 10 + (c.toNat - 48)) i
      = i * 10 ^ l.length + digitsVal l := by
  induction l with
  | nil => intro i; simp [digitsVal]
  | cons c cs ih =>
    intro i
    rw [List.foldl_cons, ih]
    have h2 : digitsVal (c :: cs) = (c.toNat - 48) * 10 ^ cs.length + digitsVal cs := by
      rw [digitsVal, List.foldl_cons, ih]
      simp
    rw [h2]
    simp [List.length_cons, pow_succ]
    ring

/-- Value of a digit list extended by one digit. -/
lemma digitsVal_concat (a : List Char) (d : Char) :
    digitsVal (a ++ [d]) = digitsVal a * 10 + (d.toNat - 48) := by
  rw [digitsVal, List.foldl_append]
  rfl

/-- Specification of the fuel-bounded digit builder: with enough fuel it
produces the decimal digits of `n` — decoding to `n`, nonempty for nonzero
`n`, and consisting of digit characters only. -/
lemma natToChars_spec (fuel : Nat) :
    ∀ n : Nat, n < fuel →
      digitsVal (natToChars fuel n []) = n ∧
      (n ≠ 0 → natToChars fuel n [] ≠ []) ∧
      (∀ c ∈ natToChars fuel n [], c.isDigit = true) := by
  induction fuel with
  | zero => intro n h; omega
  | succ fuel ih =>
    intro n h
    by_cases hn : n = 0
    · subst hn
      refine ⟨rfl, fun h => absurd rfl h, ?_⟩
      intro c hc
      simp [natToChars] at hc
    · rw [natToChars, if_neg hn, natToChars_append]
      have hdiv : n / 10 < fuel := by
        have := Nat.div_lt_self (Nat.pos_of_ne_zero hn) (by norm_num : 1 < 10)
        omega
      obtain ⟨ihv, _, ihd⟩ := ih (n / 10) hdiv
      have hmod : n % 10 < 10 := Nat.mod_lt _ (by norm_num)
      refine ⟨?_, fun _ => by simp, ?_⟩
      · rw [digitsVal_concat, ihv, digitChar_toNat _ hmod]
        omega
      · intro c hc
        rcases List.mem_append.1 hc with hc | hc
        · exact ihd c hc
        · simp only [List.mem_cons, List.not_mem_nil, or_false] at hc
          rw [hc]
          exact digitChar_isDigit _ hmod

/-- `natReprChars` decodes to its argument. -/
lemma digitsVal_natReprChars (n : Nat) : digitsVal (natReprChars n) = n := by
  rw [natReprChars]
  by_cases hn : n = 0
  · rw [if_pos hn, hn]; decide
  · rw [if_neg hn]
    exact (natToChars_spec (n + 1) n (by omega)).1

/-- `natReprChars` is never empty. -/
lemma natReprChars_ne_nil (n : Nat) : natReprChars n ≠ [] := by
  rw [natReprChars]
  by_cases hn : n = 0
  · rw [if_pos hn]; simp
  · rw [if_neg hn]
    exact (natToChars_spec (n + 1) n (by omega)).2.1 hn

/-- `natReprChars` consists of digit characters. -/
lemma natReprChars_digits (n : Nat) : ∀ c ∈ natReprChars n, c.isDigit = true := by
  rw [natReprChars]
  by_cases hn : n = 0
  · rw [if_pos hn]; intro c hc; simp at hc; rw [hc]; decide
  · rw [if_neg hn]
    exact (natToChars_spec (n + 1) n (by omega)).2.2

/-- `takeDigits` splits an all-digit prefix off a non-digit-headed rest. -/
lemma takeDigits_append (d : List Char) (r : List Char)
    (hd : ∀ c ∈ d, c.isDigit = true)
    (hr : ∀ c, r.head? = some c → c.isDigit = false) :
    takeDigits (d ++ r) = (d, r) := by
  induction d with
  | nil =>
    cases r with
    | nil => rfl
    | cons c cs =>
      rw [List.nil_append, takeDigits, if_neg (by simp [hr c rfl])]
  | cons c cs ih =>
    rw [List.cons_append, takeDigits, if_pos (hd c (by simp))]
    rw [ih (fun q hq => hd q (by simp [hq]))]

/-- `parseNatPart` inverts `natReprChars` at the head of a list. -/
lemma parseNatPart_append (n : Nat) (r : List Char)
    (hr : ∀ c, r.head? = some c → c.isDigit = false) :
    parseNatPart (natReprChars n ++ r) = some (n, r) := by
  rw [parseNatPart, takeDigits_append _ _ (natReprChars_digits n) hr]
  simp [natReprChars_ne_nil n, digitsVal_natReprChars n]

/-- `parseIntChars` inverts `intReprChars` at the head of a list. -/
lemma parseIntChars_append (i : Int) (r : List Char)
    (hr : ∀ c, r.head? = some c → c.isDigit = false) :
    parseIntChars (intReprChars i ++ r) = some (i, r) := by
  rw [intReprChars]
  by_cases hi : i < 0
  · rw [if_pos hi, List.cons_append]
    rw [show parseIntChars ('-' :: (natReprChars i.natAbs ++ r))
        = (parseNatPart (natReprChars i.natAbs ++ r)).map (fun p => (-(p.1 : Int), p.2)) from rfl]
    rw [parseNatPart_append _ _ hr]
    simp only [Option.map_some']
    have : -(i.natAbs : Int) = i := by omega
    rw [this]
  · rw [if_neg hi]
    rcases hne : natReprChars i.natAbs with _ | ⟨c, cs⟩
    · exact absurd hne (natReprChars_ne_nil _)
    · have hcd : c.isDigit = true := by
        have := natReprChars_digits i.natAbs
        rw [hne] at this
        exact this c (by simp)
      have hcnd : c ≠ '-' := by
        intro h
        rw [h] at hcd
        exact absurd hcd (by decide)
      rw [List.cons_append, parseIntChars.eq_def]
      split
      · next heq =>
        exact absurd (by injection heq) hcnd
      · rw [← List.cons_append, ← hne, parseNatPart_append _ _ hr]
        simp only [Option.map_some']
        have : ((i.natAbs : Nat) : Int) = i := by omega
        rw [this]

/-- Expecting an exact prefix succeeds on that prefix. -/
lemma stripLit_self (p : List Char) : ∀ r : List Char, stripLit p (p ++ r) = some r := by
  induction p with
  | nil => intro r; rfl
  | cons c cs ih =>
    intro r
    rw [List.cons_append, stripLit, if_pos rfl]
    exact ih r

/-- The 2d point JSON text parses back to its coordinates. -/
lemma parsePoint2d_roundtrip (x y : Int) :
    parsePoint2dS (point2dJsonText x y) = some (x, y) := by
  rw [parsePoint2dS, point2dJsonText]
  have hx : ("\x7b\"x\":" ++ intReprS x ++ ",\"y\":" ++ intReprS y ++ "\x7d").data
      = "\x7b\"x\":".data
        ++ (intReprChars x ++ (",\"y\":".data ++ (intReprChars y ++ "\x7d".data))) := by
    simp only [String.data_append, List.append_assoc]
    rfl
  rw [hx]
  have h1 : ∀ c : Char,
      ((",\"y\":".data ++ (intReprChars y ++ "\x7d".data))).head? = some c →
        c.isDigit = false := by
    intro c hc
    simp only [show (",\"y\":".data ++ (intReprChars y ++ "\x7d".data)).head? = some ','
      from rfl, Option.some_inj] at hc
    rw [← hc]
    decide
  have h2 : ∀ c : Char, ("\x7d".data).head? = some c → c.isDigit = false := by
    intro c hc
    simp only [show ("\x7d".data).head? = some '\x7d' from rfl, Option.some_inj] at hc
    rw [← hc]
    decide
  rw [parsePoint2dChars]
  rw [stripLit_self]
  simp only [Option.some_bind]
  rw [parseIntChars_append x _ h1]
  simp only [Option.some_bind]
  rw [stripLit_self]
  simp only [Option.some_bind]
  rw [parseIntChars_append y _ h2]
  simp only [Option.some_bind]
  rfl

/-- The 3d point JSON text parses back to its coordinates. -/
lemma parsePoint3d_roundtrip (x y z : Int) :
    parsePoint3dS (point3dJsonText x y z) = some (x, y, z) := by
  rw [parsePoint3dS, point3dJsonText]
  have hx : ("\x7b\"x\":" ++ intReprS x ++ ",\"y\":" ++ intReprS y ++ ",\"z\":" ++ intReprS z
        ++ "\x7d").data
      = "\x7b\"x\":".data
        ++ (intReprChars x ++ (",\"y\":".data
          ++ (intReprChars y ++ (",\"z\":".data ++ (intReprChars z ++ "\x7d".data))))) := by
    simp only [String.data_append, List.append_assoc]
    rfl
  rw [hx]
  have h1 : ∀ c : Char,
      ((",\"y\":".data ++ (intReprChars y ++ (",\"z\":".data
        ++ (intReprChars z ++ "\x7d".data))))).head? = some c → c.isDigit = false := by
    intro c hc
    simp only [show (",\"y\":".data ++ (intReprChars y ++ (",\"z\":".data
      ++ (intReprChars z ++ "\x7d".data)))).head? = some ',' from rfl, Option.some_inj] at hc
    rw [← hc]
    decide
  have h2 : ∀ c : Char,
      ((",\"z\":".data ++ (intReprChars z ++ "\x7d".data))).head? = some c →
        c.isDigit = false := by
    intro c hc
    simp only [show (",\"z\":".data ++ (intReprChars z ++ "\x7d".data)).head? = some ','
      from rfl, Option.some_inj] at hc
    rw [← hc]
    decide
  have h3 : ∀ c : Char, ("\x7d".data).head? = some c → c.isDigit = false := by
    intro c hc
    simp only [show ("\x7d".data).head? = some '\x7d' from rfl, Option.some_inj] at hc
    rw [← hc]
    decide
  rw [parsePoint3dChars]
  rw [stripLit_self]
  simp only [Option.some_bind]
  rw [parseIntChars_append x _ h1]
  simp only [Option.some_bind]
  rw [stripLit_self]
  simp only [Option.some_bind]
  rw [parseIntChars_append y _ h2]
  simp only [Option.some_bind]
  rw [stripLit_self]
  simp only [Option.some_bind]
  rw [parseIntChars_append z _ h3]
  simp only [Option.some_bind]
  rfl

/-- Claim C6: a present point2d or point3d value is emitted with the JSON
string encoding applied twice — the object literal JSON-decodes once to a
string which itself JSON-parses back to the original structured point
(coordinates embedded as integers). -/
theorem claim_C6_point_double_encoding (inst pred : String) (p : Property) (x y z : Int)
    (hp : p.isPrimitive = true) :
    (p.primitiveType = .point2d →
      Inst.writePropertyValue inst pred p (.point2d x y)
        = [⟨inst, pred, jsonQuote (point2dJsonText x y)⟩] ∧
      decodeJsonStringLit (jsonQuote (point2dJsonText x y)) = some (point2dJsonText x y) ∧
      parsePoint2dS (point2dJsonText x y) = some (x, y)) ∧
    (p.primitiveType = .point3d →
      Inst.writePropertyValue inst pred p (.point3d x y z)
        = [⟨inst, pred, jsonQuote (point3dJsonText x y z)⟩] ∧
      decodeJsonStringLit (jsonQuote (point3dJsonText x y z)) = some (point3dJsonText x y z) ∧
      parsePoint3dS (point3dJsonText x y z) = some (x, y, z)) := by
  constructor
  · intro hpt
    refine ⟨?_, decode_jsonQuote _, parsePoint2d_roundtrip x y⟩
    rw [Inst.writePropertyValue]
    simp [hp, hpt, jsStringify]
  · intro hpt
    refine ⟨?_, decode_jsonQuote _, parsePoint3d_roundtrip x y z⟩
    rw [Inst.writePropertyValue]
    simp [hp, hpt, jsStringify]

/-- Witness for C6 at the concrete point `(3, -7)`. -/
theorem claim_C6_point_double_encoding_witness :
    point2dProp.isPrimitive = true ∧
    point2dProp.primitiveType = .point2d ∧
    Inst.writePropertyValue "i" "p" point2dProp (.point2d 3 (-7))
      = [⟨"i", "p", jsonQuote (point2dJsonText 3 (-7))⟩] ∧
    decodeJsonStringLit (jsonQuote (point2dJsonText 3 (-7))) = some (point2dJsonText 3 (-7)) ∧
    parsePoint2dS (point2dJsonText 3 (-7)) = some (3, -7) := by
  have h := (claim_C6_point_double_encoding "i" "p" point2dProp 3 (-7) 0 rfl).1 rfl
  exact ⟨rfl, rfl, h.1, h.2.1, h.2.2⟩

/-! ## Machinery for claim C7: no emission on absence -/

/-- Every line `writePropertyValue` appends uses exactly the property RDF
name it was handed as predicate. -/
lemma pred_of_mem_writePropertyValue {inst pr : String} {p : Property} {v : JsValue}
    {t : Triple} (h : t ∈ Inst.writePropertyValue inst pr p v) : t.pred = pr := by
  simp only [Inst.writePropertyValue] at h
  repeat' split at h
  all_goals simp only [List.mem_cons, List.not_mem_nil, or_false] at h
  all_goals (subst h; rfl)

/-- Every line of `writeEntityInstanceProperties` comes from a declaring
class on the inheritance chain and a property whose value is present and
truthy on the entity, and its predicate is that class's RDF name extended by
the property name. -/
lemma pred_of_mem_writeEntityInstanceProperties :
    ∀ (c : ECClass) {env : Env} {entity : String → Option JsValue} {instName : String}
      {t : Triple},
      t ∈ Inst.writeEntityInstanceProperties env entity c instName →
      ∃ d ∈ chainClasses c, ∃ q ∈ d.properties, ∃ v,
        entity (jsonPropertyName q.name) = some v ∧ jsTruthy v = true ∧
        t.pred = formatSchemaItemFullName env d.fullName ++ "-" ++ q.name
  | .mk al s n ty b attrs dd ps, env, entity, instName, t, h => by
    unfold Inst.writeEntityInstanceProperties at h
    rcases List.mem_append.1 h with h | h
    · rw [List.mem_flatMap] at h
      obtain ⟨q, hq, hmem⟩ := h
      split at hmem
      · rename_i v he
        split at hmem
        · rename_i htr
          refine ⟨ECClass.mk al s n ty b attrs dd ps, ?_, q, hq, v, he, htr, ?_⟩
          · rw [chainClasses.eq_def]
            exact List.mem_cons_self _ _
          · exact pred_of_mem_writePropertyValue hmem
        · simp at hmem
      · simp at hmem
    · cases b with
      | none => simp at h
      | some base =>
        obtain ⟨d, hd, q, hq, v, hv, htr, hpred⟩ :=
          pred_of_mem_writeEntityInstanceProperties base h
        refine ⟨d, ?_, q, hq, v, hv, htr, hpred⟩
        rw [chainClasses.eq_def]
        exact List.mem_cons_of_mem _ hd

/-- Splitting a list at a separator absent from both prefixes is unique. -/
lemma append_cons_inj {x : Char} :
    ∀ (l1 l2 r1 r2 : List Char), x ∉ l1 → x ∉ l2 →
      l1 ++ x :: r1 = l2 ++ x :: r2 → l1 = l2 ∧ r1 = r2 := by
  intro l1
  induction l1 with
  | nil =>
    intro l2 r1 r2 _ h2 heq
    cases l2 with
    | nil =>
      simp only [List.nil_append, List.cons.injEq] at heq
      exact ⟨rfl, heq.2⟩
    | cons y t2 =>
      simp only [List.nil_append, List.cons_append, List.cons.injEq] at heq
      obtain ⟨h1eq, _⟩ := heq
      subst h1eq
      exact absurd (List.mem_cons_self _ _) h2
  | cons y t1 ih =>
    intro l2 r1 r2 h1 h2 heq
    cases l2 with
    | nil =>
      simp only [List.cons_append, List.nil_append, List.cons.injEq] at heq
      obtain ⟨h1eq, _⟩ := heq
      subst h1eq
      exact absurd (List.mem_cons_self _ _) h1
    | cons z t2 =>
      simp only [List.cons_append, List.cons.injEq] at heq
      obtain ⟨ha, hb⟩ := ih t2 r1 r2 (fun hm => h1 (List.mem_cons_of_mem _ hm))
        (fun hm => h2 (List.mem_cons_of_mem _ hm)) heq.2
      exact ⟨by rw [heq.1, ha], hb⟩

/-- A string of the form `a-b` with hyphen-free `a` determines `a` and `b`
uniquely among such decompositions. -/
lemma hyphen_split_unique (a b c d : String)
    (ha : '-' ∉ a.data) (hc : '-' ∉ c.data)
    (h : a ++ "-" ++ b = c ++ "-" ++ d) : a = c ∧ b = d := by
  have hdata := congrArg String.data h
  rw [String.data_append, String.data_append, String.data_append, String.data_append] at hdata
  rw [show ("-" : String).data = ['-'] from rfl] at hdata
  rw [List.append_assoc, List.append_assoc, List.singleton_append, List.singleton_append] at hdata
  obtain ⟨h1, h2⟩ := append_cons_inj _ _ _ _ ha hc hdata
  exact ⟨String.ext h1, String.ext h2⟩

/-- Claim C7: when an instance has no value for a property `p`, the instance
mapper writes no line whose predicate is `p`'s RDF name — formed from any
class on the inheritance chain — for that instance.  The hyphen-freedom
hypothesis reflects that EC schema aliases and class names never contain a
hyphen, making the `class-property` predicate decomposition unique. -/
theorem claim_C7_no_emission_on_absence (env : Env) (entity : String → Option JsValue)
    (c : ECClass) (instName pname : String)
    (habsent : entity (jsonPropertyName pname) = none)
    (hfm : ∀ d ∈ chainClasses c, '-' ∉ (formatSchemaItemFullName env d.fullName).data) :
    ∀ d ∈ chainClasses c, ∀ t ∈ Inst.writeEntityInstanceProperties env entity c instName,
      t.pred ≠ formatSchemaItemFullName env d.fullName ++ "-" ++ pname := by
  intro d hd t ht heq
  obtain ⟨d', hd', q, hq, v, hv, _, hpred⟩ := pred_of_mem_writeEntityInstanceProperties c ht
  rw [hpred] at heq
  obtain ⟨_, h2⟩ := hyphen_split_unique _ _ _ _ (hfm d' hd') (hfm d hd) heq
  rw [h2] at hv
  rw [habsent] at hv
  exact Option.noConfusion hv

/-- Witness for C7: an entity lacking a `userLabel` value produces no line
predicated on `bis:Element-UserLabel`, while still emitting its present
`CodeValue` line. -/
theorem claim_C7_no_emission_on_absence_witness :
    sparseEntity (jsonPropertyName "UserLabel") = none ∧
    ((formatSchemaItemFullName env0 elementBaseClass.fullName ++ "-" ++ "UserLabel")
      ∉ (Inst.writeEntityInstanceProperties env0 sparseEntity elementBaseClass
          "elementId:e0x1").map Triple.pred) ∧
    Inst.writeEntityInstanceProperties env0 sparseEntity elementBaseClass "elementId:e0x1"
      ≠ [] := by
  have hchain : chainClasses elementBaseClass = [elementBaseClass] := rfl
  refine ⟨by decide, ?_, by decide⟩
  intro hmem
  obtain ⟨t, ht, hpt⟩ := List.mem_map.1 hmem
  refine claim_C7_no_emission_on_absence env0 sparseEntity elementBaseClass
    "elementId:e0x1" "UserLabel" (by decide) ?_ elementBaseClass ?_ t ht hpt
  · intro d hd
    rw [hchain] at hd
    rw [List.mem_singleton] at hd
    subst hd
    decide
  · rw [hchain]
    exact List.mem_cons_self _ _

end ETL
